import Mathlib

/-!
Shallow embedding of the live-quiz session and response-aggregation engine
implemented in `src/server.py`.

The engine state consists of the in-memory session registry
(`quiz_sessions`, `current_session_id`) together with the durable
`responses` collection of the persistent store, which the engine only
appends to (`record_response`) and scans (`analysis`,
`correct_count_for_student_in_set`).  Python dicts are modelled as
insertion-ordered association lists, Firestore's `responses` collection as
a list of records, and timestamps as natural numbers of seconds.
-/

namespace Technomath

/-- Association-list lookup, first binding wins (Python dict read). -/
def assocFind {β : Type} (l : List (String × β)) (k : String) : Option β :=
  match l with
  | [] => none
  | (k', v) :: t => if k' = k then some v else assocFind t k

/-- Association-list update: overwrite in place if the key is present,
append at the end otherwise (Python dict write semantics). -/
def assocSet {β : Type} (l : List (String × β)) (k : String) (v : β) :
    List (String × β) :=
  match l with
  | [] => [(k, v)]
  | (k', v') :: t => if k' = k then (k, v) :: t else (k', v') :: assocSet t k v

/-- One question as snapshotted into a session by `get_questions`: the four
option texts keyed `A..D`, the correct letter, and the per-question
ResponseLedger `responses` as four ordered buckets of student names. -/
structure Question where
  qid : String
  text : String
  optionA : String
  optionB : String
  optionC : String
  optionD : String
  correct : String
  respA : List String
  respB : List String
  respC : List String
  respD : List String
deriving DecidableEq, Repr

/-- The four declared option letters: the keys of `question['options']`. -/
def optionKeys : List String := ["A", "B", "C", "D"]

/-- `sum(question['responses'].values(), [])`: all students who already
answered this question, across the four buckets in key order. -/
def Question.allResponses (q : Question) : List String :=
  q.respA ++ q.respB ++ q.respC ++ q.respD

/-- The bucket of a given option letter. -/
def Question.bucket (q : Question) (opt : String) : List String :=
  if opt = "A" then q.respA
  else if opt = "B" then q.respB
  else if opt = "C" then q.respC
  else if opt = "D" then q.respD
  else []

/-- `question['responses'][option].append(student)`. -/
def Question.addResponse (q : Question) (opt student : String) : Question :=
  if opt = "A" then { q with respA := q.respA ++ [student] }
  else if opt = "B" then { q with respB := q.respB ++ [student] }
  else if opt = "C" then { q with respC := q.respC ++ [student] }
  else if opt = "D" then { q with respD := q.respD ++ [student] }
  else q

/-- One live quiz session (`create_quiz_session`). `student_scores` is the
ScoreBoard, a `defaultdict(int)` modelled as an association list whose
absent keys read as 0. `created_at` is in seconds. -/
structure Session where
  active_quiz : List Question
  current_question_index : Nat
  student_scores : List (String × Nat)
  current_set_id : String
  created_at : Nat
deriving DecidableEq, Repr

/-- A durable record in the persistent store's `responses` collection
(`record_response`). -/
structure ResponseRec where
  set_id : String
  question_id : String
  student : String
  answer : String
  is_correct : Bool
deriving DecidableEq, Repr

/-- Engine state: the session registry, the current-session pointer, and
the durable `responses` collection. -/
structure EngineState where
  quiz_sessions : List (String × Session)
  current_session_id : Option String
  responses_store : List ResponseRec
deriving DecidableEq, Repr

/-- Score read with `defaultdict(int)` semantics. -/
def getScore (scores : List (String × Nat)) (s : String) : Nat :=
  (assocFind scores s).getD 0

/-- `session['student_scores'][student] += 1`. -/
def incScore (scores : List (String × Nat)) (s : String) : List (String × Nat) :=
  assocSet scores s (getScore scores s + 1)

/-- Python whitespace as recognised by `str.strip()` (ASCII range). -/
def isSpaceChar (c : Char) : Bool :=
  c = ' ' ∨ c = '\t' ∨ c = '\n' ∨ c = '\r' ∨ c = '\x0b' ∨ c = '\x0c'

/-- `str.upper()` on one character (ASCII letters, as used for options). -/
def upperChar (c : Char) : Char :=
  if 'a' ≤ c ∧ c ≤ 'z' then Char.ofNat (c.toNat - 32) else c

/-- `raw_option.strip().upper()`: the normalisation `receive_data` applies
to the submitted option before any validation. -/
def normalizeOption (raw : String) : String :=
  ⟨((raw.data.dropWhile isSpaceChar).reverse.dropWhile isSpaceChar).reverse.map upperChar⟩

/-- The distinct failure modes of `receive_data` that concern the engine
(after student identity has been resolved externally). -/
inductive SubmitError where
  | missingOption
  | noActiveSession
  | invalidQuestionIndex
  | duplicateStudent
  | invalidOption
deriving DecidableEq, Repr

/-- Result of a `Submit` call: the accepted record, or a failure. -/
inductive SubmitResult where
  | ok (student option : String) (isCorrect : Bool)
  | error (e : SubmitError)
deriving DecidableEq, Repr

/-- The state produced by an accepted submission: append the student to the
chosen option's bucket, bump the score when correct, write the durable
record (`receive_data`, lines 592-607). -/
def acceptResult (st : EngineState) (sid : String) (sess : Session) (q : Question)
    (student opt : String) : EngineState :=
  let q' := q.addResponse opt student
  let correct : Bool := opt = q.correct
  let sess' : Session :=
    { sess with
      active_quiz := sess.active_quiz.set sess.current_question_index q'
      student_scores :=
        if correct then incScore sess.student_scores student else sess.student_scores }
  { st with
    quiz_sessions := assocSet st.quiz_sessions sid sess'
    responses_store := st.responses_store ++
      [{ set_id := sess.current_set_id, question_id := q.qid, student := student,
         answer := opt, is_correct := correct }] }

/-- `receive_data` (`/receive_data`): the Submit operation, starting after
external student-identity resolution.  Check order follows the source:
missing option, no active session, question index bounds, duplicate
student across all four buckets, option validity, then acceptance. -/
def receive_data (st : EngineState) (student raw : String) :
    EngineState × SubmitResult :=
  let option := normalizeOption raw
  if option = "" then (st, .error .missingOption)
  else
    match st.current_session_id with
    | none => (st, .error .noActiveSession)
    | some sid =>
      match assocFind st.quiz_sessions sid with
      | none => (st, .error .noActiveSession)
      | some sess =>
        match sess.active_quiz[sess.current_question_index]? with
        | none => (st, .error .invalidQuestionIndex)
        | some q =>
          if student ∈ q.allResponses then (st, .error .duplicateStudent)
          else if option ∉ optionKeys then (st, .error .invalidOption)
          else (acceptResult st sid sess q student option,
                .ok student option (option = q.correct))

/-- `next_question` (`/next`): the Advance operation. -/
def next_question (st : EngineState) : EngineState :=
  match st.current_session_id with
  | none => st
  | some sid =>
    match assocFind st.quiz_sessions sid with
    | none => st
    | some sess =>
      if sess.current_question_index < sess.active_quiz.length - 1 then
        let sess' := { sess with current_question_index := sess.current_question_index + 1 }
        { st with quiz_sessions := assocSet st.quiz_sessions sid sess' }
      else st

/-- `CurrentSession`: the session the current pointer references, when it
exists in the registry (`dashboard`, lines 472-480). -/
def currentSession (st : EngineState) : Option Session :=
  match st.current_session_id with
  | none => none
  | some sid => assocFind st.quiz_sessions sid

/-- The active question of the current session, when the index is in
bounds. -/
def currentQuestion (st : EngineState) : Option Question :=
  match currentSession st with
  | none => none
  | some sess => sess.active_quiz[sess.current_question_index]?

/-- Has this student already answered the current question? -/
def studentAnswered (st : EngineState) (student : String) : Bool :=
  match currentQuestion st with
  | none => false
  | some q => student ∈ q.allResponses

/-- Raw question-set data as stored under `question_sets/<set>/questions`. -/
structure QuestionData where
  qid : String
  text : String
  optionA : String
  optionB : String
  optionC : String
  optionD : String
  correct : String
deriving DecidableEq, Repr

/-- `get_questions` builds each snapshot question with a fresh empty
ResponseLedger `{"A": [], "B": [], "C": [], "D": []}`. -/
def mkQuestion (qd : QuestionData) : Question :=
  { qid := qd.qid, text := qd.text, optionA := qd.optionA, optionB := qd.optionB,
    optionC := qd.optionC, optionD := qd.optionD, correct := qd.correct,
    respA := [], respB := [], respC := [], respD := [] }

/-- `create_quiz_session`. -/
def create_quiz_session (set_id : String) (questions : List Question) (now : Nat) :
    Session :=
  { active_quiz := questions, current_question_index := 0, student_scores := [],
    current_set_id := set_id, created_at := now }

/-- `start_quiz` (`/start_quiz/<set_id>`): the StartSession operation.
Returns the new state and whether a session was started (`False` is the
EmptyQuestionSet failure: flash an error and leave the engine untouched).
`new_sid` is the freshly generated time-derived session id. -/
def start_quiz (st : EngineState) (set_id : String) (qdata : List QuestionData)
    (new_sid : String) (now : Nat) : EngineState × Bool :=
  let questions := qdata.map mkQuestion
  if questions.isEmpty then (st, false)
  else
    ({ st with
        quiz_sessions := assocSet st.quiz_sessions new_sid
          (create_quiz_session set_id questions now)
        current_session_id := some new_sid }, true)

/-- `cleanup_expired_sessions`: remove every session strictly older than
86400 seconds (24 hours); return the number removed. -/
def cleanup_expired_sessions (st : EngineState) (now : Nat) : EngineState × Nat :=
  ({ st with quiz_sessions :=
      st.quiz_sessions.filter (fun p => ¬ 86400 < now - p.2.created_at) },
   (st.quiz_sessions.filter (fun p => 86400 < now - p.2.created_at)).length)

/-- `correct_count_for_student_in_set`: durable responses of this student
in this set marked correct. -/
def correct_count_for_student_in_set (store : List ResponseRec)
    (student set_id : String) : Nat :=
  (store.filter (fun r =>
    r.student = student ∧ r.set_id = set_id ∧ r.is_correct = true)).length

/-- The student universe of `analysis`: students known to the in-session
ScoreBoard united with students having any durable response for this
session's `set_id` (the source skips falsy, i.e. empty, student names). -/
def analysis_student_list (sess : Session) (store : List ResponseRec) :
    List String :=
  (sess.student_scores.map Prod.fst ++
    ((store.filter (fun r => r.set_id = sess.current_set_id ∧ r.student ≠ "")).map
      (fun r => r.student))).dedup

/-- `(correct / total_questions) * 100 if total_questions else 0`,
modelled over ℚ. -/
def student_percentage (score total : Nat) : ℚ :=
  if total = 0 then 0 else ((score : ℚ) / (total : ℚ)) * 100

/-- The `student_performance` table built by `analysis`: per student the
recomputed score, the total question count of the set, and the
percentage. -/
def student_performance (sess : Session) (store : List ResponseRec) (tq : Nat) :
    List (String × Nat × Nat × ℚ) :=
  (analysis_student_list sess store).map (fun s =>
    (s, correct_count_for_student_in_set store s sess.current_set_id, tq,
     student_percentage (correct_count_for_student_in_set store s sess.current_set_id) tq))

/-- Number of accepted submissions in a sequence of `Submit` calls by one
student, threading the engine state through the calls. -/
def acceptedCount (st : EngineState) (student : String) : List String → Nat
  | [] => 0
  | raw :: rest =>
    match receive_data st student raw with
    | (st', .ok _ _ _) => 1 + acceptedCount st' student rest
    | (st', .error _) => acceptedCount st' student rest

/-! ## Concrete fixtures -/

/-- A two-option-correct-B question with an empty ledger. -/
def q1 : Question :=
  { qid := "q1", text := "2+2?", optionA := "3", optionB := "4", optionC := "5",
    optionD := "6", correct := "B", respA := [], respB := [], respC := [], respD := [] }

/-- A second question, correct option A. -/
def q2 : Question :=
  { qid := "q2", text := "3*3?", optionA := "9", optionB := "8", optionC := "7",
    optionD := "6", correct := "A", respA := [], respB := [], respC := [], respD := [] }

/-- A fresh two-question session on set `set1`. -/
def sess1 : Session :=
  { active_quiz := [q1, q2], current_question_index := 0, student_scores := [],
    current_set_id := "set1", created_at := 0 }

/-- Engine state with `sess1` current. -/
def st1 : EngineState :=
  { quiz_sessions := [("s1", sess1)], current_session_id := some "s1",
    responses_store := [] }

/-- `q1` after alice answered `B`. -/
def q1dup : Question := { q1 with respB := ["alice"] }

/-- The session in which alice already answered the active question. -/
def sess2 : Session := { sess1 with active_quiz := [q1dup, q2] }

/-- Engine state with `sess2` current. -/
def st2 : EngineState :=
  { quiz_sessions := [("s2", sess2)], current_session_id := some "s2",
    responses_store :=
      [{ set_id := "set1", question_id := "q1", student := "alice", answer := "B",
         is_correct := true }] }

/-- Raw question data used to start a session. -/
def qd1 : QuestionData :=
  { qid := "q9", text := "5-3?", optionA := "1", optionB := "2", optionC := "3",
    optionD := "4", correct := "B" }

/-- A session created long ago (expired at `now = 200000`). -/
def sessOld : Session :=
  { active_quiz := [q1], current_question_index := 0, student_scores := [],
    current_set_id := "set1", created_at := 0 }

/-- A session exactly 24 hours old at `now = 200000`. -/
def sessEdge : Session := { sessOld with created_at := 113600 }

/-- A session well within its TTL at `now = 200000`. -/
def sessFresh : Session := { sessOld with created_at := 150000 }

/-- Registry holding an expired, a boundary and a fresh session, with the
expired one current. -/
def stR : EngineState :=
  { quiz_sessions := [("old", sessOld), ("edge", sessEdge), ("fresh", sessFresh)],
    current_session_id := some "old", responses_store := [] }

/-- Durable store for the analysis fixtures: bob answered wrong, carol
answered right, both on `set1`. -/
def storeA : List ResponseRec :=
  [{ set_id := "set1", question_id := "q1", student := "bob", answer := "A",
     is_correct := false },
   { set_id := "set1", question_id := "q1", student := "carol", answer := "B",
     is_correct := true }]

/-- Session for the analysis fixtures: only carol has an in-memory score. -/
def sessA : Session :=
  { active_quiz := [q1, q2], current_question_index := 1,
    student_scores := [("carol", 1)], current_set_id := "set1", created_at := 0 }

/-! ## Association-list lemmas -/

theorem assocFind_assocSet_self {β : Type} (l : List (String × β)) (k : String) (v : β) :
    assocFind (assocSet l k v) k = some v := by
  induction l with
  | nil => simp [assocSet, assocFind]
  | cons p t ih =>
    by_cases h : p.1 = k
    · simp [assocSet, assocFind, h]
    · simp only [assocSet, assocFind]
      rw [if_neg h, assocFind, if_neg h]
      exact ih

theorem assocFind_assocSet_ne {β : Type} (l : List (String × β)) (k k' : String) (v : β)
    (h : k' ≠ k) : assocFind (assocSet l k v) k' = assocFind l k' := by
  have hne : ¬ k = k' := fun hk => h hk.symm
  induction l with
  | nil =>
    simp only [assocSet, assocFind, if_neg hne]
  | cons p t ih =>
    by_cases hp : p.1 = k
    · simp only [assocSet, if_pos hp, assocFind, if_neg hne, hp]
    · simp only [assocSet, if_neg hp, assocFind]
      by_cases hp' : p.1 = k'
      · rw [if_pos hp', if_pos hp']
      · rw [if_neg hp', if_neg hp', ih]

theorem assocFind_eq_none {β : Type} (l : List (String × β)) (k : String)
    (h : k ∉ l.map Prod.fst) : assocFind l k = none := by
  induction l with
  | nil => rfl
  | cons p t ih =>
    simp only [List.map_cons, List.mem_cons] at h
    push_neg at h
    have hne : ¬ p.1 = k := fun hh => h.1 hh.symm
    simp only [assocFind, if_neg hne]
    exact ih h.2

/-- Filtering an association list with pairwise-distinct keys commutes with
lookup: a kept binding is still found, a dropped one is gone. -/
theorem assocFind_filter {β : Type} (l : List (String × β)) (p : String × β → Bool)
    (k : String) (hnd : (l.map Prod.fst).Nodup) :
    assocFind (l.filter p) k =
      match assocFind l k with
      | some v => if p (k, v) then some v else none
      | none => none := by
  induction l with
  | nil => rfl
  | cons hd t ih =>
    simp only [List.map_cons, List.nodup_cons] at hnd
    by_cases hk : hd.1 = k
    · subst hk
      by_cases hp : p hd = true
      · rw [List.filter_cons_of_pos hp]
        simp [assocFind, hp]
      · rw [List.filter_cons_of_neg hp]
        have hnone : assocFind (t.filter p) hd.1 = none := by
          apply assocFind_eq_none
          intro hmem
          rcases List.mem_map.1 hmem with ⟨pr, hpr, hfst⟩
          exact hnd.1 (List.mem_map.2 ⟨pr, List.mem_of_mem_filter hpr, hfst⟩)
        rw [hnone]
        simp [assocFind, hp]
    · by_cases hp : p hd = true
      · rw [List.filter_cons_of_pos hp]
        simp only [assocFind, if_neg hk]
        exact ih hnd.2
      · rw [List.filter_cons_of_neg hp]
        simp only [assocFind, if_neg hk]
        exact ih hnd.2

/-! ## ScoreBoard lemmas -/

theorem getScore_incScore_self (sc : List (String × Nat)) (s : String) :
    getScore (incScore sc s) s = getScore sc s + 1 := by
  simp [getScore, incScore, assocFind_assocSet_self]

theorem getScore_incScore_ne (sc : List (String × Nat)) (s s' : String) (h : s' ≠ s) :
    getScore (incScore sc s) s' = getScore sc s' := by
  simp [getScore, incScore, assocFind_assocSet_ne sc s s' _ h]

theorem getScore_le_incScore (sc : List (String × Nat)) (s s' : String) :
    getScore sc s' ≤ getScore (incScore sc s) s' := by
  by_cases h : s' = s
  · subst h; rw [getScore_incScore_self]; omega
  · rw [getScore_incScore_ne sc s s' h]

/-! ## Question / ledger lemmas -/

theorem bucket_addResponse_self (q : Question) (opt s : String) (h : opt ∈ optionKeys) :
    (q.addResponse opt s).bucket opt = q.bucket opt ++ [s] := by
  simp only [optionKeys, List.mem_cons, List.mem_singleton, List.not_mem_nil, or_false] at h
  rcases h with h | h | h | h <;> subst h <;> simp [Question.addResponse, Question.bucket]

theorem mem_allResponses_addResponse (q : Question) (opt s : String) (h : opt ∈ optionKeys) :
    s ∈ (q.addResponse opt s).allResponses := by
  simp only [optionKeys, List.mem_cons, List.mem_singleton, List.not_mem_nil, or_false] at h
  rcases h with h | h | h | h <;> subst h <;>
    simp [Question.addResponse, Question.allResponses]

theorem addResponse_qid (q : Question) (opt s : String) :
    (q.addResponse opt s).qid = q.qid := by
  simp only [Question.addResponse]
  split <;> try rfl
  split <;> try rfl
  split <;> try rfl
  split <;> rfl

theorem addResponse_correct (q : Question) (opt s : String) :
    (q.addResponse opt s).correct = q.correct := by
  simp only [Question.addResponse]
  split <;> try rfl
  split <;> try rfl
  split <;> try rfl
  split <;> rfl

/-! ## `receive_data` characterisation -/

theorem currentQuestion_eq_some {st : EngineState} {q : Question} :
    currentQuestion st = some q ↔
      ∃ sid sess, st.current_session_id = some sid ∧
        assocFind st.quiz_sessions sid = some sess ∧
        sess.active_quiz[sess.current_question_index]? = some q := by
  unfold currentQuestion currentSession
  cases h1 : st.current_session_id with
  | none => simp
  | some sid =>
    cases h2 : assocFind st.quiz_sessions sid with
    | none => simp [h2]
    | some sess => simp [h2]

/-- An accepted submission: when a session is current, its question index
is in bounds, the student has not yet answered, and the normalised option
is a declared letter, `receive_data` appends to the ledger, scores, and
records, returning the acceptance. -/
theorem receive_data_accept (st : EngineState) (student raw : String)
    (sid : String) (sess : Session) (q : Question)
    (h1 : st.current_session_id = some sid)
    (h2 : assocFind st.quiz_sessions sid = some sess)
    (h3 : sess.active_quiz[sess.current_question_index]? = some q)
    (h4 : student ∉ q.allResponses)
    (h5 : normalizeOption raw ∈ optionKeys) :
    receive_data st student raw =
      (acceptResult st sid sess q student (normalizeOption raw),
       .ok student (normalizeOption raw) (normalizeOption raw = q.correct)) := by
  have h0 : ¬ normalizeOption raw = "" := by
    intro hh
    rw [hh] at h5
    exact absurd h5 (by decide)
  simp [receive_data, h0, h1, h2, h3, h4, h5]

/-- Any call to `receive_data` either fails leaving the state untouched, or
is an acceptance with all the guard conditions established. -/
theorem receive_data_spec (st : EngineState) (student raw : String) :
    (∃ e, receive_data st student raw = (st, SubmitResult.error e)) ∨
    (∃ sid sess q, st.current_session_id = some sid ∧
      assocFind st.quiz_sessions sid = some sess ∧
      sess.active_quiz[sess.current_question_index]? = some q ∧
      student ∉ q.allResponses ∧ normalizeOption raw ∈ optionKeys) := by
  by_cases h0 : normalizeOption raw = ""
  · exact Or.inl ⟨.missingOption, by simp [receive_data, h0]⟩
  · cases h1 : st.current_session_id with
    | none => exact Or.inl ⟨.noActiveSession, by simp [receive_data, h0, h1]⟩
    | some sid =>
      cases h2 : assocFind st.quiz_sessions sid with
      | none => exact Or.inl ⟨.noActiveSession, by simp [receive_data, h0, h1, h2]⟩
      | some sess =>
        cases h3 : sess.active_quiz[sess.current_question_index]? with
        | none =>
          exact Or.inl ⟨.invalidQuestionIndex, by simp [receive_data, h0, h1, h2, h3]⟩
        | some q =>
          by_cases h4 : student ∈ q.allResponses
          · exact Or.inl ⟨.duplicateStudent, by simp [receive_data, h0, h1, h2, h3, h4]⟩
          · by_cases h5 : normalizeOption raw ∈ optionKeys
            · exact Or.inr ⟨sid, sess, q, rfl, h2, h3, h4, h5⟩
            · exact Or.inl ⟨.invalidOption, by simp [receive_data, h0, h1, h2, h3, h4, h5]⟩

/-- Every rejection leaves the engine state exactly as it was. -/
theorem receive_data_error_state (st : EngineState) (student raw : String) (e : SubmitError)
    (h : (receive_data st student raw).2 = .error e) :
    (receive_data st student raw).1 = st := by
  rcases receive_data_spec st student raw with ⟨e', he⟩ | ⟨sid, sess, q, h1, h2, h3, h4, h5⟩
  · rw [he]
  · rw [receive_data_accept st student raw sid sess q h1 h2 h3 h4 h5] at h
    cases h

/-- A rejected option that is non-empty and non-declared, for a student who
has not yet answered an in-bounds active question, is reported as
`invalidOption` (the `missingOption` report covers the empty case). -/
theorem receive_data_invalid (st : EngineState) (student raw : String)
    (sid : String) (sess : Session) (q : Question)
    (h1 : st.current_session_id = some sid)
    (h2 : assocFind st.quiz_sessions sid = some sess)
    (h3 : sess.active_quiz[sess.current_question_index]? = some q)
    (h4 : student ∉ q.allResponses)
    (h5 : normalizeOption raw ∉ optionKeys) :
    receive_data st student raw =
      (st, .error (if normalizeOption raw = "" then SubmitError.missingOption
                   else SubmitError.invalidOption)) := by
  by_cases h0 : normalizeOption raw = ""
  · simp [receive_data, h0]
  · simp [receive_data, h0, h1, h2, h3, h4, h5]

/-- After an accepted submission the student is in the active question's
ledger. -/
theorem studentAnswered_after_accept (st : EngineState) (sid : String) (sess : Session)
    (q : Question) (student opt : String)
    (h1 : st.current_session_id = some sid)
    (h3 : sess.active_quiz[sess.current_question_index]? = some q)
    (h5 : opt ∈ optionKeys) :
    studentAnswered (acceptResult st sid sess q student opt) student = true := by
  have hlt : sess.current_question_index < sess.active_quiz.length := by
    rcases List.getElem?_eq_some.1 h3 with ⟨hh, _⟩
    exact hh
  unfold studentAnswered currentQuestion currentSession acceptResult
  simp only [h1, assocFind_assocSet_self]
  rw [List.getElem?_set_eq_of_lt _ hlt]
  simp [mem_allResponses_addResponse q opt student h5]

/-- A student who already answered the active question is always rejected,
with the state untouched. -/
theorem receive_data_of_answered (st : EngineState) (student raw : String)
    (h : studentAnswered st student = true) :
    ∃ e, receive_data st student raw = (st, SubmitResult.error e) := by
  rcases receive_data_spec st student raw with he | ⟨sid, sess, q, h1, h2, h3, h4, _⟩
  · exact he
  · exfalso
    apply h4
    unfold studentAnswered currentQuestion currentSession at h
    simp only [h1, h2, h3] at h
    simpa using h

/-! ## Accepted-submission counting -/

theorem acceptedCount_of_answered (student : String) (opts : List String) :
    ∀ st : EngineState, studentAnswered st student = true →
      acceptedCount st student opts = 0 := by
  induction opts with
  | nil => intro st _; rfl
  | cons raw rest ih =>
    intro st h
    rcases receive_data_of_answered st student raw h with ⟨e, he⟩
    simp only [acceptedCount, he]
    exact ih st h

theorem acceptedCount_le_one (student : String) (opts : List String) :
    ∀ st : EngineState, acceptedCount st student opts ≤ 1 := by
  induction opts with
  | nil => intro st; simp [acceptedCount]
  | cons raw rest ih =>
    intro st
    rcases receive_data_spec st student raw with ⟨e, he⟩ | ⟨sid, sess, q, h1, h2, h3, h4, h5⟩
    · simp only [acceptedCount, he]
      exact ih st
    · simp only [acceptedCount, receive_data_accept st student raw sid sess q h1 h2 h3 h4 h5]
      rw [acceptedCount_of_answered student rest _
        (studentAnswered_after_accept st sid sess q student _ h1 h3 h5)]

theorem acceptedCount_eq_one (student : String) (opts : List String) :
    ∀ st : EngineState, studentAnswered st student = false →
      (currentQuestion st).isSome = true →
      (∃ raw ∈ opts, normalizeOption raw ∈ optionKeys) →
      acceptedCount st student opts = 1 := by
  induction opts with
  | nil =>
    intro st _ _ hex
    simp at hex
  | cons raw rest ih =>
    intro st hans hcq hex
    obtain ⟨q, hq⟩ := Option.isSome_iff_exists.1 hcq
    obtain ⟨sid, sess, h1, h2, h3⟩ := currentQuestion_eq_some.1 hq
    have h4 : student ∉ q.allResponses := by
      intro hmem
      have hcontra : studentAnswered st student = true := by
        unfold studentAnswered
        rw [hq]
        simpa using hmem
      rw [hcontra] at hans
      cases hans
    by_cases h5 : normalizeOption raw ∈ optionKeys
    · simp only [acceptedCount, receive_data_accept st student raw sid sess q h1 h2 h3 h4 h5]
      rw [acceptedCount_of_answered student rest _
        (studentAnswered_after_accept st sid sess q student _ h1 h3 h5)]
    · simp only [acceptedCount, receive_data_invalid st student raw sid sess q h1 h2 h3 h4 h5]
      rcases hex with ⟨r, hr, hv⟩
      rcases List.mem_cons.1 hr with rfl | hr'
      · exact absurd hv h5
      · exact ih st hans hcq ⟨r, hr', hv⟩

/-- A student who already answered the active question is rejected as a
duplicate on every non-empty submitted option, whatever that option is:
`allResponses` scans all four buckets. -/
theorem receive_data_duplicate (st : EngineState) (student raw : String)
    (h : studentAnswered st student = true) (h0 : normalizeOption raw ≠ "") :
    receive_data st student raw = (st, .error .duplicateStudent) := by
  unfold studentAnswered at h
  cases hq : currentQuestion st with
  | none => rw [hq] at h; cases h
  | some q =>
    rw [hq] at h
    obtain ⟨sid, sess, h1, h2, h3⟩ := currentQuestion_eq_some.1 hq
    have hmem : student ∈ q.allResponses := by simpa using h
    simp [receive_data, h0, h1, h2, h3, hmem]

theorem currentSession_eq_some {st : EngineState} {sess : Session} :
    currentSession st = some sess ↔
      ∃ sid, st.current_session_id = some sid ∧
        assocFind st.quiz_sessions sid = some sess := by
  unfold currentSession
  cases h1 : st.current_session_id with
  | none => simp
  | some sid => simp

/-- One `next_question` step on the current session: the question list and
scores are untouched and the index advances by one, clamped below the last
index. -/
theorem next_question_step (st : EngineState) (sess : Session)
    (h : currentSession st = some sess) :
    ∃ sess', currentSession (next_question st) = some sess' ∧
      sess'.active_quiz = sess.active_quiz ∧
      sess'.student_scores = sess.student_scores ∧
      sess'.current_question_index =
        (if sess.current_question_index < sess.active_quiz.length - 1
         then sess.current_question_index + 1
         else sess.current_question_index) := by
  obtain ⟨sid, h1, h2⟩ := currentSession_eq_some.1 h
  by_cases hlt : sess.current_question_index < sess.active_quiz.length - 1
  · refine ⟨{ sess with current_question_index := sess.current_question_index + 1 },
      ?_, rfl, rfl, by rw [if_pos hlt]⟩
    unfold next_question
    simp only [h1, h2, if_pos hlt]
    exact currentSession_eq_some.2 ⟨sid, rfl, assocFind_assocSet_self _ _ _⟩
  · refine ⟨sess, ?_, rfl, rfl, by rw [if_neg hlt]⟩
    unfold next_question
    simp only [h1, h2, if_neg hlt]
    exact h

/-! ## Claim theorems -/

/-- C2: `Advance` on the current session never decreases the index and
never pushes it beyond `len(questions) - 1`: a non-last question advances
by exactly one, the last question is a no-op; and over any sequence of
Advance operations the index stays monotone and bounded. -/
theorem advance_clamped (st : EngineState) (sess : Session)
    (h : currentSession st = some sess) :
    (∃ sess', currentSession (next_question st) = some sess' ∧
      sess'.active_quiz = sess.active_quiz ∧
      sess.current_question_index ≤ sess'.current_question_index ∧
      (sess.current_question_index ≤ sess.active_quiz.length - 1 →
        sess'.current_question_index ≤ sess.active_quiz.length - 1) ∧
      (sess.current_question_index < sess.active_quiz.length - 1 →
        sess'.current_question_index = sess.current_question_index + 1) ∧
      (sess.current_question_index = sess.active_quiz.length - 1 →
        sess'.current_question_index = sess.current_question_index)) ∧
    (∀ n : Nat, ∃ sess', currentSession (next_question^[n] st) = some sess' ∧
      sess'.active_quiz = sess.active_quiz ∧
      sess.current_question_index ≤ sess'.current_question_index ∧
      (sess.current_question_index ≤ sess.active_quiz.length - 1 →
        sess'.current_question_index ≤ sess.active_quiz.length - 1)) := by
  constructor
  · obtain ⟨sess', hcur, hquiz, hsc, hidx⟩ := next_question_step st sess h
    refine ⟨sess', hcur, hquiz, ?_, ?_, ?_, ?_⟩
    · rw [hidx]; split <;> omega
    · intro hb; rw [hidx]; split <;> omega
    · intro hlt; rw [hidx, if_pos hlt]
    · intro hlast; rw [hidx, if_neg (by omega)]
  · intro n
    induction n generalizing st sess with
    | zero => exact ⟨sess, by simpa using h, rfl, le_refl _, fun hb => hb⟩
    | succ m ih =>
      obtain ⟨sess', hcur, hquiz, hsc, hidx⟩ := next_question_step st sess h
      obtain ⟨sess'', hcur'', hquiz'', hle'', hb''⟩ := ih (next_question st) sess' hcur
      rw [Function.iterate_succ_apply]
      refine ⟨sess'', hcur'', by rw [hquiz'', hquiz], ?_, ?_⟩
      · calc sess.current_question_index
            ≤ sess'.current_question_index := by rw [hidx]; split <;> omega
          _ ≤ sess''.current_question_index := hle''
      · intro hb
        have h1 : sess'.current_question_index ≤ sess.active_quiz.length - 1 := by
          rw [hidx]; split <;> omega
        have := hb'' (by rw [hquiz]; exact h1)
        rw [hquiz] at this
        exact this

/-- C2 witness: advancing the fresh two-question session moves the index
from 0, obeying all the bounds. -/
theorem advance_clamped_witness :
    (∃ sess', currentSession (next_question st1) = some sess' ∧
      sess'.active_quiz = sess1.active_quiz ∧
      sess1.current_question_index ≤ sess'.current_question_index ∧
      (sess1.current_question_index ≤ sess1.active_quiz.length - 1 →
        sess'.current_question_index ≤ sess1.active_quiz.length - 1) ∧
      (sess1.current_question_index < sess1.active_quiz.length - 1 →
        sess'.current_question_index = sess1.current_question_index + 1) ∧
      (sess1.current_question_index = sess1.active_quiz.length - 1 →
        sess'.current_question_index = sess1.current_question_index)) ∧
    (∀ n : Nat, ∃ sess', currentSession (next_question^[n] st1) = some sess' ∧
      sess'.active_quiz = sess1.active_quiz ∧
      sess1.current_question_index ≤ sess'.current_question_index ∧
      (sess1.current_question_index ≤ sess1.active_quiz.length - 1 →
        sess'.current_question_index ≤ sess1.active_quiz.length - 1)) :=
  advance_clamped st1 sess1 (by decide)

/-- C3: `start_quiz` on an empty question list fails and leaves the engine
untouched; on a non-empty list it installs a fresh session — index 0,
empty ScoreBoard, empty ledgers on every question — as the current one,
while every other session id still resolves exactly as before. -/
theorem start_session_spec (st : EngineState) (set_id : String)
    (qdata : List QuestionData) (new_sid : String) (now : Nat) :
    (qdata = [] → start_quiz st set_id qdata new_sid now = (st, false)) ∧
    (qdata ≠ [] →
      (start_quiz st set_id qdata new_sid now).2 = true ∧
      (start_quiz st set_id qdata new_sid now).1.responses_store = st.responses_store ∧
      (∃ sess, currentSession (start_quiz st set_id qdata new_sid now).1 = some sess ∧
        sess.current_question_index = 0 ∧
        sess.student_scores = [] ∧
        sess.current_set_id = set_id ∧
        sess.created_at = now ∧
        sess.active_quiz = qdata.map mkQuestion ∧
        (∀ q ∈ sess.active_quiz,
          q.respA = [] ∧ q.respB = [] ∧ q.respC = [] ∧ q.respD = [])) ∧
      (∀ sid', sid' ≠ new_sid →
        assocFind (start_quiz st set_id qdata new_sid now).1.quiz_sessions sid' =
          assocFind st.quiz_sessions sid')) := by
  constructor
  · intro hempty
    subst hempty
    rfl
  · intro hne
    have hisEmpty : (qdata.map mkQuestion).isEmpty = false := by
      cases qdata with
      | nil => exact absurd rfl hne
      | cons a t => rfl
    refine ⟨?_, ?_, ?_, ?_⟩
    · simp [start_quiz, hisEmpty]
    · simp [start_quiz, hisEmpty]
    · refine ⟨create_quiz_session set_id (qdata.map mkQuestion) now, ?_, rfl, rfl, rfl,
        rfl, rfl, ?_⟩
      · apply currentSession_eq_some.2
        refine ⟨new_sid, ?_, ?_⟩
        · simp [start_quiz, hisEmpty]
        · simp only [start_quiz, hisEmpty, Bool.false_eq_true, if_false]
          exact assocFind_assocSet_self _ _ _
      · intro q hq
        simp only [create_quiz_session] at hq
        rcases List.mem_map.1 hq with ⟨qd, _, rfl⟩
        exact ⟨rfl, rfl, rfl, rfl⟩
    · intro sid' hsid
      simp only [start_quiz, hisEmpty, Bool.false_eq_true, if_false]
      exact assocFind_assocSet_ne _ _ _ _ hsid

/-- C3 witness: starting with an empty list fails without touching the
state; starting with one question installs a fresh current session while
the old session `s1` is still retrievable. -/
theorem start_session_spec_witness :
    start_quiz st1 "set9" [] "s9" 5 = (st1, false) ∧
    (∃ sess, currentSession (start_quiz st1 "set9" [qd1] "s9" 5).1 = some sess ∧
      sess.current_question_index = 0 ∧ sess.student_scores = []) ∧
    assocFind (start_quiz st1 "set9" [qd1] "s9" 5).1.quiz_sessions "s1" =
      assocFind st1.quiz_sessions "s1" := by
  refine ⟨(start_session_spec st1 "set9" [] "s9" 5).1 rfl, ?_, ?_⟩
  · obtain ⟨sess, hcur, hidx, hsc, _⟩ :=
      ((start_session_spec st1 "set9" [qd1] "s9" 5).2 (by decide)).2.2.1
    exact ⟨sess, hcur, hidx, hsc⟩
  · exact ((start_session_spec st1 "set9" [qd1] "s9" 5).2 (by decide)).2.2.2 "s1"
      (by decide)

/-- C4: an accepted Submit computes `isCorrect` exactly as the equality of
the normalised option with the question's correct option, appends the
student to that option's bucket, writes the same `isCorrect` into the
durable record, bumps the student's score by exactly 1 iff correct, and
never decreases any score. -/
theorem accept_scoring_spec (st : EngineState) (student raw : String)
    (sid : String) (sess : Session) (q : Question)
    (h1 : st.current_session_id = some sid)
    (h2 : assocFind st.quiz_sessions sid = some sess)
    (h3 : sess.active_quiz[sess.current_question_index]? = some q)
    (h4 : student ∉ q.allResponses)
    (h5 : normalizeOption raw ∈ optionKeys) :
    ∃ st' sess',
      receive_data st student raw =
        (st', .ok student (normalizeOption raw)
          (decide (normalizeOption raw = q.correct))) ∧
      currentSession st' = some sess' ∧
      sess'.active_quiz[sess.current_question_index]? =
        some (q.addResponse (normalizeOption raw) student) ∧
      (q.addResponse (normalizeOption raw) student).bucket (normalizeOption raw) =
        q.bucket (normalizeOption raw) ++ [student] ∧
      st'.responses_store = st.responses_store ++
        [{ set_id := sess.current_set_id, question_id := q.qid, student := student,
           answer := normalizeOption raw,
           is_correct := decide (normalizeOption raw = q.correct) }] ∧
      getScore sess'.student_scores student =
        getScore sess.student_scores student +
          (if decide (normalizeOption raw = q.correct) = true then 1 else 0) ∧
      (∀ s, getScore sess.student_scores s ≤ getScore sess'.student_scores s) := by
  have hlt : sess.current_question_index < sess.active_quiz.length := by
    rcases List.getElem?_eq_some.1 h3 with ⟨hh, _⟩
    exact hh
  refine ⟨acceptResult st sid sess q student (normalizeOption raw),
    { sess with
      active_quiz := sess.active_quiz.set sess.current_question_index
        (q.addResponse (normalizeOption raw) student)
      student_scores :=
        if decide (normalizeOption raw = q.correct) = true
        then incScore sess.student_scores student else sess.student_scores },
    ?_, ?_, ?_, ?_, ?_, ?_, ?_⟩
  · rw [receive_data_accept st student raw sid sess q h1 h2 h3 h4 h5]
  · apply currentSession_eq_some.2
    refine ⟨sid, h1, ?_⟩
    simp only [acceptResult]
    rw [assocFind_assocSet_self]
  · simp only
    rw [List.getElem?_set_eq_of_lt _ hlt]
  · exact bucket_addResponse_self q (normalizeOption raw) student h5
  · simp [acceptResult]
  · simp only
    split
    · rw [getScore_incScore_self]
    · rfl
  · intro s
    simp only
    split
    · exact getScore_le_incScore sess.student_scores student s
    · exact le_refl _

/-- C4 witness: carol's accepted answer `" b "` to `q1` (correct `B`) is
recorded correct, appended to the B bucket, persisted with the same flag,
and scores exactly one point. -/
theorem accept_scoring_spec_witness :
    ∃ st' sess',
      receive_data st1 "carol" " b " =
        (st', .ok "carol" (normalizeOption " b ")
          (decide (normalizeOption " b " = q1.correct))) ∧
      currentSession st' = some sess' ∧
      sess'.active_quiz[sess1.current_question_index]? =
        some (q1.addResponse (normalizeOption " b ") "carol") ∧
      (q1.addResponse (normalizeOption " b ") "carol").bucket (normalizeOption " b ") =
        q1.bucket (normalizeOption " b ") ++ ["carol"] ∧
      st'.responses_store = st1.responses_store ++
        [{ set_id := sess1.current_set_id, question_id := q1.qid, student := "carol",
           answer := normalizeOption " b ",
           is_correct := decide (normalizeOption " b " = q1.correct) }] ∧
      getScore sess'.student_scores "carol" =
        getScore sess1.student_scores "carol" +
          (if decide (normalizeOption " b " = q1.correct) = true then 1 else 0) ∧
      (∀ s, getScore sess1.student_scores s ≤ getScore sess'.student_scores s) :=
  accept_scoring_spec st1 "carol" " b " "s1" sess1 q1 (by decide) (by decide)
    (by decide) (by decide) (by decide)

/-- C1 (amended): for every question and student, at most one Submit call
is accepted; a non-empty submission by a student already present in any of
the four option buckets is rejected as a duplicate; and a sequence of
Submit calls by one student yields exactly one acceptance provided the
student has not yet answered, a question is active, and at least one call
of the sequence carries a valid option letter.  (As originally stated —
exactly one acceptance for every sequence — the claim fails when no call
of the sequence passes validation.) -/
theorem submit_at_most_once (st : EngineState) (student raw : String)
    (opts : List String) :
    (studentAnswered st student = true → normalizeOption raw ≠ "" →
      receive_data st student raw = (st, .error .duplicateStudent)) ∧
    acceptedCount st student opts ≤ 1 ∧
    (studentAnswered st student = false →
      (currentQuestion st).isSome = true →
      (∃ r ∈ opts, normalizeOption r ∈ optionKeys) →
      acceptedCount st student opts = 1) := by
  refine ⟨fun h h0 => receive_data_duplicate st student raw h h0,
    acceptedCount_le_one student opts st,
    fun h1 h2 h3 => acceptedCount_eq_one student opts st h1 h2 h3⟩

/-- C1 witness: alice, already in bucket B, is rejected as a duplicate when
submitting C; and a fresh student's sequence with one valid option among
invalid ones is accepted exactly once. -/
theorem submit_at_most_once_witness :
    receive_data st2 "alice" "C" = (st2, .error .duplicateStudent) ∧
    acceptedCount st1 "alice" ["Z", "b", "B"] = 1 :=
  ⟨(submit_at_most_once st2 "alice" "C" []).1 (by decide) (by decide),
   (submit_at_most_once st1 "alice" "A" ["Z", "b", "B"]).2.2 (by decide) (by decide)
     ⟨"b", by decide, by decide⟩⟩

/-- C1 counterexample: a sequence of Submit calls for the same
(question, student) consisting of a single invalid-option call has zero
accepted submissions, not exactly one. -/
theorem submit_at_most_once_cex :
    acceptedCount st1 "alice" ["Z"] = 0 ∧ acceptedCount st1 "alice" ["Z"] ≠ 1 := by
  decide

/-- C5 (amended): a Submit whose normalised option is non-empty and not one
of the four declared letters fails with `invalidOption`, provided a
question is active and the student has not already answered it (a
duplicate student is reported as `duplicateStudent` even when the option
is also invalid, and an empty option as `missingOption`). -/
theorem invalid_option_rejected (st : EngineState) (student raw : String)
    (q : Question) (hq : currentQuestion st = some q)
    (hdup : studentAnswered st student = false)
    (h0 : normalizeOption raw ≠ "")
    (hinv : normalizeOption raw ∉ optionKeys) :
    receive_data st student raw = (st, .error .invalidOption) := by
  obtain ⟨sid, sess, h1, h2, h3⟩ := currentQuestion_eq_some.1 hq
  have h4 : student ∉ q.allResponses := by
    intro hmem
    have hcontra : studentAnswered st student = true := by
      unfold studentAnswered
      rw [hq]
      simpa using hmem
    rw [hcontra] at hdup
    cases hdup
  rw [receive_data_invalid st student raw sid sess q h1 h2 h3 h4 hinv, if_neg h0]

/-- C5 witness: a fresh student submitting the undeclared letter `E`
(padded, lower-case) is rejected with `invalidOption`. -/
theorem invalid_option_rejected_witness :
    receive_data st1 "bob" " e " = (st1, .error .invalidOption) :=
  invalid_option_rejected st1 "bob" " e " q1 (by decide) (by decide) (by decide)
    (by decide)

/-- C5 counterexample: alice already answered the active question; her
submission of the invalid option `Z` is rejected as `duplicateStudent`,
not as `invalidOption` — the duplicate check runs before option
validation. -/
theorem invalid_option_rejected_cex :
    (receive_data st2 "alice" "Z").2 = .error .duplicateStudent ∧
    (receive_data st2 "alice" "Z").2 ≠ .error .invalidOption := by
  decide

/-- C9: every rejected Submit (missing option, no active session, bad
question index, duplicate student, or invalid option) leaves the engine
state — every session's ledgers and scores, and the durable store —
exactly unchanged. -/
theorem reject_no_state_change (st : EngineState) (student raw : String)
    (e : SubmitError) (h : (receive_data st student raw).2 = .error e) :
    (receive_data st student raw).1 = st ∧
    (receive_data st student raw).1.quiz_sessions = st.quiz_sessions ∧
    (receive_data st student raw).1.responses_store = st.responses_store := by
  have hst := receive_data_error_state st student raw e h
  exact ⟨hst, by rw [hst], by rw [hst]⟩

/-- C9 witness: alice's duplicate submission leaves the state unchanged. -/
theorem reject_no_state_change_witness :
    (receive_data st2 "alice" "C").1 = st2 :=
  (reject_no_state_change st2 "alice" "C" .duplicateStudent (by decide)).1

/-- C10: the submitted option is whitespace-trimmed and upper-cased before
any validation, so any two raw options with the same normal form — e.g.
`" a "` and `"A"` — produce identical results on every state. -/
theorem submit_option_normalized (st : EngineState) (student raw raw' : String)
    (h : normalizeOption raw = normalizeOption raw') :
    receive_data st student raw = receive_data st student raw' := by
  unfold receive_data
  rw [h]

/-- C10 witness: submitting `" a "` behaves exactly like submitting `"A"`
and is accepted for a fresh student. -/
theorem submit_option_normalized_witness :
    receive_data st1 "alice" " a " = receive_data st1 "alice" "A" ∧
    (receive_data st1 "alice" " a ").2 = .ok "alice" "A" false :=
  ⟨submit_option_normalized st1 "alice" " a " "A" (by decide), by decide⟩

/-- C6: every row of the analysis table satisfies
`percentage = 100 * score / totalQuestions`, with percentage 0 when the
set has no questions — no division by zero can occur. -/
theorem percentage_safe (sess : Session) (store : List ResponseRec) (tq : Nat) :
    ∀ entry ∈ student_performance sess store tq,
      (entry.2.2.1 = 0 → entry.2.2.2 = 0) ∧
      (entry.2.2.1 ≠ 0 →
        entry.2.2.2 = 100 * (entry.2.1 : ℚ) / (entry.2.2.1 : ℚ)) := by
  intro entry hentry
  rcases List.mem_map.1 hentry with ⟨s, hs, rfl⟩
  constructor
  · intro h0
    simp only at h0 ⊢
    rw [student_percentage, if_pos h0]
  · intro h0
    simp only at h0 ⊢
    rw [student_percentage, if_neg h0]
    ring

/-- C6 witness: carol's reported percentage over the two-question set obeys
the `100 * score / total` formula, and over a zero-question set it is 0. -/
theorem percentage_safe_witness :
    student_percentage (correct_count_for_student_in_set storeA "carol" "set1") 2 =
      100 * ((correct_count_for_student_in_set storeA "carol" "set1" : Nat) : ℚ) /
        ((2 : Nat) : ℚ) ∧
    student_percentage (correct_count_for_student_in_set storeA "carol" "set1") 0 = 0 := by
  have hmem : ("carol", correct_count_for_student_in_set storeA "carol" sessA.current_set_id,
      2, student_percentage
        (correct_count_for_student_in_set storeA "carol" sessA.current_set_id) 2)
      ∈ student_performance sessA storeA 2 :=
    List.mem_map.2 ⟨"carol", by decide, rfl⟩
  have hmem0 : ("carol", correct_count_for_student_in_set storeA "carol" sessA.current_set_id,
      0, student_percentage
        (correct_count_for_student_in_set storeA "carol" sessA.current_set_id) 0)
      ∈ student_performance sessA storeA 0 :=
    List.mem_map.2 ⟨"carol", by decide, rfl⟩
  exact ⟨(percentage_safe sessA storeA 2 _ hmem).2 (by decide),
    (percentage_safe sessA storeA 0 _ hmem0).1 rfl⟩

/-- C7: the analysis universe is exactly the in-memory ScoreBoard students
united with the students having a durable response for this session's set
id; every reported score is recomputed as the count of that student's
correct durable responses in the set — independent of the ScoreBoard
values — and a student whose durable responses are all wrong appears with
score 0. -/
theorem analysis_recompute_spec (sess : Session) (store : List ResponseRec) (tq : Nat)
    (hne : ∀ r ∈ store, r.set_id = sess.current_set_id → r.student ≠ "") :
    (∀ s, s ∈ analysis_student_list sess store ↔
       (s ∈ sess.student_scores.map Prod.fst ∨
        ∃ r ∈ store, r.set_id = sess.current_set_id ∧ r.student = s)) ∧
    (∀ entry ∈ student_performance sess store tq,
       entry.2.1 = correct_count_for_student_in_set store entry.1 sess.current_set_id ∧
       entry.2.2.1 = tq) ∧
    (∀ scores' : List (String × Nat),
       scores'.map Prod.fst = sess.student_scores.map Prod.fst →
       student_performance { sess with student_scores := scores' } store tq =
         student_performance sess store tq) ∧
    (∀ s, (∃ r ∈ store, r.set_id = sess.current_set_id ∧ r.student = s) →
       (∀ r ∈ store, r.set_id = sess.current_set_id → r.student = s →
         r.is_correct = false) →
       (s, 0, tq, student_percentage 0 tq) ∈ student_performance sess store tq) := by
  refine ⟨?_, ?_, ?_, ?_⟩
  · intro s
    constructor
    · intro hs
      rw [analysis_student_list, List.mem_dedup, List.mem_append] at hs
      rcases hs with hs | hs
      · exact Or.inl hs
      · right
        rcases List.mem_map.1 hs with ⟨r, hr, rfl⟩
        rw [List.mem_filter] at hr
        have hcond := hr.2
        simp only [decide_eq_true_eq] at hcond
        exact ⟨r, hr.1, hcond.1, rfl⟩
    · intro hs
      rw [analysis_student_list, List.mem_dedup, List.mem_append]
      rcases hs with hs | ⟨r, hr, hset, hstu⟩
      · exact Or.inl hs
      · right
        refine List.mem_map.2 ⟨r, List.mem_filter.2 ⟨hr, ?_⟩, hstu⟩
        simp [hset, hne r hr hset]
  · intro entry hentry
    rcases List.mem_map.1 hentry with ⟨s, hs, rfl⟩
    exact ⟨rfl, rfl⟩
  · intro scores' hk
    simp only [student_performance, analysis_student_list]
    rw [hk]
  · intro s hex hw
    have hzero : correct_count_for_student_in_set store s sess.current_set_id = 0 := by
      rw [correct_count_for_student_in_set, List.length_eq_zero, List.filter_eq_nil_iff]
      intro r hr
      simp only [decide_eq_true_eq, not_and]
      intro hstu hset
      rw [hw r hr hset hstu]
      simp
    have hmem : s ∈ analysis_student_list sess store := by
      rw [analysis_student_list, List.mem_dedup, List.mem_append]
      right
      rcases hex with ⟨r, hr, hset, hstu⟩
      refine List.mem_map.2 ⟨r, List.mem_filter.2 ⟨hr, ?_⟩, hstu⟩
      simp [hset, hne r hr hset]
    have hrow : (s, correct_count_for_student_in_set store s sess.current_set_id, tq,
        student_percentage (correct_count_for_student_in_set store s sess.current_set_id)
          tq) ∈ student_performance sess store tq :=
      List.mem_map.2 ⟨s, hmem, rfl⟩
    rwa [hzero] at hrow

/-- C7 witness: bob has only a wrong durable response and no ScoreBoard
entry, yet appears in the analysis with score 0; and the universe contains
exactly carol and bob. -/
theorem analysis_recompute_witness :
    ("bob", 0, 2, student_percentage 0 2) ∈ student_performance sessA storeA 2 ∧
    ("bob" ∈ analysis_student_list sessA storeA ↔
      ("bob" ∈ sessA.student_scores.map Prod.fst ∨
       ∃ r ∈ storeA, r.set_id = sessA.current_set_id ∧ r.student = "bob")) := by
  have h := analysis_recompute_spec sessA storeA 2 (by decide)
  refine ⟨?_, h.1 "bob"⟩
  refine h.2.2.2 "bob" ⟨storeA.head (by decide), by decide, by decide, by decide⟩ ?_
  decide

/-- C8: reaping removes exactly the sessions strictly older than 24 hours
(86400 s) — a session aged exactly 24 hours is deterministically retained —
and when the current session is reaped, `CurrentSession` reports not-found
until a new session is started. -/
theorem reap_spec (st : EngineState) (now : Nat)
    (hnd : (st.quiz_sessions.map Prod.fst).Nodup) :
    (∀ sid sess, assocFind st.quiz_sessions sid = some sess →
       assocFind (cleanup_expired_sessions st now).1.quiz_sessions sid =
         (if 86400 < now - sess.created_at then none else some sess)) ∧
    (∀ sid, assocFind st.quiz_sessions sid = none →
       assocFind (cleanup_expired_sessions st now).1.quiz_sessions sid = none) ∧
    (∀ sid sess, assocFind st.quiz_sessions sid = some sess →
       now - sess.created_at = 86400 →
       assocFind (cleanup_expired_sessions st now).1.quiz_sessions sid = some sess) ∧
    (∀ sid sess, st.current_session_id = some sid →
       assocFind st.quiz_sessions sid = some sess →
       86400 < now - sess.created_at →
       currentSession (cleanup_expired_sessions st now).1 = none) ∧
    (∀ set_id qdata new_sid now2, qdata ≠ ([] : List QuestionData) →
       (currentSession (start_quiz (cleanup_expired_sessions st now).1 set_id qdata
         new_sid now2).1).isSome = true) := by
  have key : ∀ sid sess, assocFind st.quiz_sessions sid = some sess →
      assocFind (cleanup_expired_sessions st now).1.quiz_sessions sid =
        (if 86400 < now - sess.created_at then none else some sess) := by
    intro sid sess hfind
    simp only [cleanup_expired_sessions]
    rw [assocFind_filter _ _ _ hnd, hfind]
    by_cases hexp : 86400 < now - sess.created_at
    · simp [hexp]
    · simp [hexp]
  refine ⟨key, ?_, ?_, ?_, ?_⟩
  · intro sid hfind
    simp only [cleanup_expired_sessions]
    rw [assocFind_filter _ _ _ hnd, hfind]
  · intro sid sess hfind hedge
    rw [key sid sess hfind, hedge]
    simp
  · intro sid sess hcur hfind hexp
    unfold currentSession
    simp only [cleanup_expired_sessions, hcur]
    rw [assocFind_filter _ _ _ hnd, hfind]
    simp [hexp]
  · intro set_id qdata new_sid now2 hqne
    have hisEmpty : (qdata.map mkQuestion).isEmpty = false := by
      cases qdata with
      | nil => exact absurd rfl hqne
      | cons a t => rfl
    simp [start_quiz, hisEmpty, currentSession, assocFind_assocSet_self]

/-- C8 witness: at `now = 200000`, the session created at 0 is reaped, the
session aged exactly 86400 s is retained, and the reaped current session
makes `CurrentSession` report not-found; a freshly started session is
found again. -/
theorem reap_spec_witness :
    assocFind (cleanup_expired_sessions stR 200000).1.quiz_sessions "old" = none ∧
    assocFind (cleanup_expired_sessions stR 200000).1.quiz_sessions "edge" =
      some sessEdge ∧
    currentSession (cleanup_expired_sessions stR 200000).1 = none ∧
    (currentSession (start_quiz (cleanup_expired_sessions stR 200000).1 "set1" [qd1]
      "snew" 200001).1).isSome = true := by
  have h := reap_spec stR 200000 (by decide)
  refine ⟨?_, ?_, ?_, ?_⟩
  · have h1 := h.1 "old" sessOld (by decide)
    rwa [if_pos (by decide)] at h1
  · exact h.2.2.1 "edge" sessEdge (by decide) (by decide)
  · exact h.2.2.2.1 "old" sessOld (by decide) (by decide) (by decide)
  · exact h.2.2.2.2 "set1" [qd1] "snew" 200001 (by decide)

end Technomath
